import Mathlib

/-!
Verification of the ft-lab repository: a QLoRA instruction-finetuning
notebook.  We shallowly embed the notebook's data-handling code (dataset
loading/filtering, prompt formatting, tokenizer provisioning, quantization
configuration, and the LoRA adapter injection contract) and prove the
spec's testable properties about it.
-/

namespace FtLab

/-- A raw record of the dolly-15k dataset after the loader dropped all
columns but the three kept ones.  In the source, `format_instruction`
receives such a row as a dict with string fields. -/
structure RawRecord where
  instruction : String
  context : String
  response : String
  deriving Repr, DecidableEq

/-- A full record of the dolly-15k dataset as fetched, including the
`category` column used by the loader's filter. -/
structure FullRecord where
  instruction : String
  context : String
  response : String
  category : String
  deriving Repr, DecidableEq

/-- Embedding of the notebook's `format_instruction`: the f-string template
with the three section headers, written as concatenation of its literal
segments with the interpolated fields. -/
def format_instruction (sample : RawRecord) : String :=
  "### Context:\n" ++ sample.context ++
    "\n\n### Question:\nUsing only the context above, " ++ sample.instruction ++
    "\n\n### Response:\n" ++ sample.response ++ "\n"

/-- The category allow-list used by `load_modified_dataset`
(the isin list in the source). -/
def allowed_categories : List String :=
  ["closed_qa", "information_extraction", "open_qa"]

/-- Column projection performed by the loader: it keeps only the
instruction, context and response columns. -/
def projectRecord (r : FullRecord) : RawRecord :=
  { instruction := r.instruction, context := r.context, response := r.response }

/-- Embedding of the notebook's `load_modified_dataset` applied to the rows
fetched from the hub: it sets a `keep` flag to true on every row, filters
on category membership in `allowed_categories` conjoined with the flag,
then keeps only the three columns. -/
def load_modified_dataset (rows : List FullRecord) : List RawRecord :=
  let flagged := rows.map (fun r => (r, true))
  let kept := flagged.filter (fun rk => allowed_categories.contains rk.1.category && rk.2)
  kept.map (fun rk => projectRecord rk.1)

/-- The loader's filter as the spec words it: restriction to the allowed
category subset alone, with the same column projection.  Used to compare
against the source's `keep`-flag formulation. -/
def load_by_category_only (rows : List FullRecord) : List RawRecord :=
  (rows.filter (fun r => allowed_categories.contains r.category)).map projectRecord

/-- The mutable state of the tokenizer object returned by
`AutoTokenizer.from_pretrained`: its end-of-sequence token, its (optional)
padding token, and its padding side. -/
structure Tokenizer where
  eos_token : String
  pad_token : Option String
  padding_side : String
  deriving Repr, DecidableEq

/-- Embedding of the Model Provisioner's two tokenizer assignments,
`tokenizer.pad_token = tokenizer.eos_token` followed by
`tokenizer.padding_side = "right"`, as a state transformer. -/
def provision_tokenizer (t : Tokenizer) : Tokenizer :=
  let t1 := { t with pad_token := some t.eos_token }
  { t1 with padding_side := "right" }

/-- The torch numeric dtypes that appear in the notebook. -/
inductive TorchDtype where
  | float16
  | bfloat16
  | float32
  deriving Repr, DecidableEq

/-- The fields of the quantization configuration object constructed in the
notebook. -/
structure BitsAndBytesConfig where
  load_in_4bit : Bool
  bnb_4bit_use_double_quant : Bool
  bnb_4bit_quant_type : String
  bnb_4bit_compute_dtype : TorchDtype
  deriving Repr, DecidableEq

/-- Embedding of the notebook's `bnb_config` constant. -/
def bnb_config : BitsAndBytesConfig :=
  { load_in_4bit := true
    bnb_4bit_use_double_quant := false
    bnb_4bit_quant_type := "nf4"
    bnb_4bit_compute_dtype := TorchDtype.bfloat16 }

/-- The notebook's `model_id` constant. -/
def model_id : String := "mistralai/Mistral-7B-v0.1"

/-- The notebook's `is_peft` flag, hard-coded to False. -/
def is_peft : Bool := false

/-- The observable configuration of the model object produced by
`AutoModelForCausalLM.from_pretrained` in the branch the notebook takes
(`is_peft` is False): the identifier it was loaded from, the torch dtype,
and the quantization configuration it was handed. -/
structure LoadedModel where
  source_id : String
  torch_dtype : TorchDtype
  quantization_config : BitsAndBytesConfig
  deriving Repr, DecidableEq

/-- Embedding of the notebook's model-loading call: the model is loaded
from `model_id` with `torch_dtype` float16 and quantization config
`bnb_config`. -/
def loaded_model : LoadedModel :=
  { source_id := model_id
    torch_dtype := TorchDtype.float16
    quantization_config := bnb_config }

/-- The fields of the notebook's LoRA configuration object. -/
structure LoraConfig where
  lora_alpha : Nat
  lora_dropout : Rat
  r : Nat
  bias : String
  task_type : String
  target_modules : List String
  deriving Repr, DecidableEq

/-- Embedding of the notebook's `peft_config` constant: rank 8, alpha 16,
dropout 0.1, no bias, causal-LM task, and the seven target projections. -/
def peft_config : LoraConfig :=
  { lora_alpha := 16
    lora_dropout := 1/10
    r := 8
    bias := "none"
    task_type := "CAUSAL_LM"
    target_modules := ["v_proj", "down_proj", "up_proj", "o_proj", "q_proj", "gate_proj", "k_proj"] }

/-- A weight-carrying site of the base model: a named linear projection of
shape inDim by outDim. -/
structure ModuleSite where
  name : String
  inDim : Nat
  outDim : Nat
  deriving Repr, DecidableEq

/-- A named parameter tensor of the adapted model, with its element count
and its trainability flag. -/
structure NamedParam where
  name : String
  size : Nat
  requires_grad : Bool
  deriving Repr, DecidableEq

/-- Modelled from the spec: the peft library's `get_peft_model` is external
code, not part of this repository.  Per the spec's Adapter Injector
contract it marks every original weight non-trainable, inserts a pair of
rank-r matrices (r by inDim and outDim by r, together r * (inDim + outDim)
elements) at each projection whose name is in the target list, and marks
only those inserted matrices trainable. -/
def get_peft_model (model : List ModuleSite) (cfg : LoraConfig) : List NamedParam :=
  model.map (fun s => { name := s.name, size := s.inDim * s.outDim, requires_grad := false })
    ++ (model.filter (fun s => cfg.target_modules.contains s.name)).map
        (fun s => { name := s.name ++ ".lora", size := cfg.r * (s.inDim + s.outDim),
                    requires_grad := true })

/-- Total number N of original parameters of a base model. -/
def total_param_count (model : List ModuleSite) : Nat :=
  (model.map (fun s => s.inDim * s.outDim)).sum

/-- Number of trainable parameters of an adapted model: the sum of the
sizes of the parameters whose `requires_grad` flag is set. -/
def trainable_param_count (ps : List NamedParam) : Nat :=
  ((ps.filter (fun p => p.requires_grad)).map (fun p => p.size)).sum

/-- Sum of the sizes of the low-rank matrices inserted at the target
projections. -/
def adapter_size_sum (model : List ModuleSite) (cfg : LoraConfig) : Nat :=
  ((model.filter (fun s => cfg.target_modules.contains s.name)).map
      (fun s => cfg.r * (s.inDim + s.outDim))).sum

/-- A small concrete base model used to instantiate the adapter theorem:
one target projection and one non-target head. -/
def demo_base_model : List ModuleSite :=
  [{ name := "q_proj", inDim := 32, outDim := 32 },
   { name := "lm_head", inDim := 8, outDim := 8 }]

lemma filter_grad_frozen (l : List ModuleSite) :
    (l.map (fun s =>
        ({ name := s.name, size := s.inDim * s.outDim, requires_grad := false } : NamedParam))).filter
      (fun p => p.requires_grad) = [] := by
  induction l with
  | nil => rfl
  | cons s ss ih => simp [ih]

lemma filter_grad_adapters (l : List ModuleSite) (cfg : LoraConfig) :
    ((l.map (fun s =>
        ({ name := s.name ++ ".lora", size := cfg.r * (s.inDim + s.outDim),
           requires_grad := true } : NamedParam))).filter (fun p => p.requires_grad))
      = l.map (fun s =>
        ({ name := s.name ++ ".lora", size := cfg.r * (s.inDim + s.outDim),
           requires_grad := true } : NamedParam)) := by
  induction l with
  | nil => rfl
  | cons s ss ih => simp [ih]

lemma trainable_count_eq (model : List ModuleSite) (cfg : LoraConfig) :
    trainable_param_count (get_peft_model model cfg) = adapter_size_sum model cfg := by
  simp only [trainable_param_count, get_peft_model, List.filter_append,
    filter_grad_frozen, filter_grad_adapters, List.nil_append, List.map_map,
    adapter_size_sum]
  rfl

lemma sum_filter_lt (l : List ModuleSite) (P : ModuleSite → Bool) (f g : ModuleSite → Nat)
    (h : ∀ s ∈ l, P s = true → f s < g s) :
    ((l.filter P).map f).sum ≤ (l.map g).sum ∧
    (l.filter P ≠ [] → ((l.filter P).map f).sum < (l.map g).sum) := by
  induction l with
  | nil => simp
  | cons s ss ih =>
    obtain ⟨ihle, ihlt⟩ := ih (fun x hx => h x (List.mem_cons_of_mem _ hx))
    by_cases hp : P s = true
    · have hfg : f s < g s := h s (List.mem_cons_self _ _) hp
      simp only [List.filter_cons, hp, if_pos, List.map_cons, List.sum_cons]
      exact ⟨Nat.add_le_add (Nat.le_of_lt hfg) ihle,
        fun _ => Nat.add_lt_add_of_lt_of_le hfg ihle⟩
    · simp only [List.filter_cons, hp, if_neg, Bool.false_eq_true, List.map_cons, List.sum_cons]
      exact ⟨le_trans ihle (Nat.le_add_left _ _),
        fun hne => lt_of_lt_of_le (ihlt hne) (Nat.le_add_left _ _)⟩

/-- Claim C1: on the record with instruction "summarize this", context
"The sky is blue." and response "Sky: blue.", `format_instruction` returns
exactly the expected string, trailing newline included. -/
theorem format_instruction_concrete_example :
    format_instruction
        { instruction := "summarize this", context := "The sky is blue.",
          response := "Sky: blue." }
      = "### Context:\nThe sky is blue.\n\n### Question:\nUsing only the context above, summarize this\n\n### Response:\nSky: blue.\n" :=
  rfl

/-- Claim C2: for every record, the formatter's output decomposes as the
three literal section headers, in order, each followed by the record's
context, instruction and response embedded verbatim with no escaping,
truncation or validation, for arbitrary (including empty or arbitrarily
long) field values. -/
theorem format_instruction_headers_in_order (s : RawRecord) :
    format_instruction s =
      "### Context:" ++ ("\n" ++ s.context ++ "\n\n") ++
        ("### Question:" ++ ("\nUsing only the context above, " ++ s.instruction ++ "\n\n") ++
          ("### Response:" ++ ("\n" ++ s.response ++ "\n"))) := by
  apply String.ext
  simp [format_instruction, String.data_append]

/-- Claim C3: for every input record set, every row whose category is in
the allowed set contributes its three-field projection to the loader's
output, and every output record is the three-field projection of some
input row whose category is in the allowed set (so rows with a category
outside the set contribute nothing).  Output records are of type
`RawRecord`, which carries exactly the fields instruction, context and
response. -/
theorem load_modified_dataset_filters_categories (rows : List FullRecord) :
    (∀ r ∈ rows, r.category ∈ allowed_categories →
        projectRecord r ∈ load_modified_dataset rows) ∧
    (∀ out ∈ load_modified_dataset rows,
        ∃ r ∈ rows, r.category ∈ allowed_categories ∧ out = projectRecord r) := by
  constructor
  · intro r hr hc
    simp [load_modified_dataset]
    exact ⟨r, ⟨hr, hc⟩, rfl⟩
  · intro out hout
    simp [load_modified_dataset] at hout
    obtain ⟨r, ⟨hr, hc⟩, heq⟩ := hout
    exact ⟨r, hr, hc, heq.symm⟩

/-- Claim C4: the formatter is a pure function of the record, so invoking
it any number of times on the same record yields the same list of
identical outputs; in particular calling it twice yields identical text.
Statelessness holds by construction: the embedding of the source shows it
reads nothing but its argument. -/
theorem format_instruction_idempotent (s : RawRecord) (n : Nat) :
    (List.replicate n s).map format_instruction
      = List.replicate n (format_instruction s) :=
  List.map_replicate

/-- Claim C5: after the provisioning assignments run, the tokenizer's
padding token equals its end-of-sequence token and its padding side is
"right", whatever the tokenizer state was before. -/
theorem provision_tokenizer_pad_eq_eos (t : Tokenizer) :
    (provision_tokenizer t).pad_token = some (provision_tokenizer t).eos_token ∧
    (provision_tokenizer t).padding_side = "right" := by
  simp [provision_tokenizer]

/-- Claim C6: no tokenizer state reachable from the provisioning code has
padding side "left": the final unconditional assignment makes left padding
impossible by construction, whatever the initial state. -/
theorem provision_tokenizer_never_left (t : Tokenizer) :
    ((provision_tokenizer t).padding_side == "left") = false := by
  simp [provision_tokenizer]

/-- Claim C7: with the notebook's rank-8 configuration, the adapted model
(a) contains every original weight marked non-trainable, (b) has trainable
parameters only at the named target projections, with an inserted low-rank
matrix pair at each target projection present in the model and nowhere
else, and (c) has trainable-parameter count equal to the sum of the
inserted matrix sizes and, whenever each insertion is smaller than the
projection it adapts and the model is nonempty, strictly less than the
original parameter count N. -/
theorem get_peft_model_spec (model : List ModuleSite)
    (hlt : ∀ s ∈ model, peft_config.target_modules.contains s.name = true →
        peft_config.r * (s.inDim + s.outDim) < s.inDim * s.outDim)
    (hpos : 0 < total_param_count model) :
    (∀ s ∈ model,
        ({ name := s.name, size := s.inDim * s.outDim, requires_grad := false } : NamedParam)
          ∈ get_peft_model model peft_config) ∧
    (∀ p ∈ get_peft_model model peft_config, p.requires_grad = true →
        ∃ s ∈ model, peft_config.target_modules.contains s.name = true ∧
          p = { name := s.name ++ ".lora",
                size := peft_config.r * (s.inDim + s.outDim), requires_grad := true }) ∧
    (∀ s ∈ model, peft_config.target_modules.contains s.name = true →
        ({ name := s.name ++ ".lora", size := peft_config.r * (s.inDim + s.outDim),
           requires_grad := true } : NamedParam) ∈ get_peft_model model peft_config) ∧
    trainable_param_count (get_peft_model model peft_config)
      = adapter_size_sum model peft_config ∧
    trainable_param_count (get_peft_model model peft_config) < total_param_count model := by
  refine ⟨?_, ?_, ?_, trainable_count_eq model peft_config, ?_⟩
  · intro s hs
    exact List.mem_append_left _ (List.mem_map_of_mem _ hs)
  · intro p hp hgrad
    rcases List.mem_append.mp hp with hfr | had
    · obtain ⟨s, _, heq⟩ := List.mem_map.mp hfr
      rw [← heq] at hgrad
      simp at hgrad
    · obtain ⟨s, hsf, heq⟩ := List.mem_map.mp had
      obtain ⟨hsm, hst⟩ := List.mem_filter.mp hsf
      exact ⟨s, hsm, hst, heq.symm⟩
  · intro s hs hst
    exact List.mem_append_right _
      (List.mem_map_of_mem _ (List.mem_filter.mpr ⟨hs, hst⟩))
  · rw [trainable_count_eq model peft_config]
    by_cases hF : model.filter
        (fun s => peft_config.target_modules.contains s.name) = []
    · have hz : adapter_size_sum model peft_config = 0 := by
        unfold adapter_size_sum
        rw [hF]
        rfl
      rw [hz]; exact hpos
    · have := (sum_filter_lt model
          (fun s => peft_config.target_modules.contains s.name)
          (fun s => peft_config.r * (s.inDim + s.outDim))
          (fun s => s.inDim * s.outDim) hlt).2 hF
      exact this

/-- Witness for claim C7: the hypotheses hold for the concrete
`demo_base_model` and the theorem then yields the strict trainable-count
bound there. -/
theorem get_peft_model_spec_witness :
    (∀ s ∈ demo_base_model, peft_config.target_modules.contains s.name = true →
        peft_config.r * (s.inDim + s.outDim) < s.inDim * s.outDim) ∧
    0 < total_param_count demo_base_model ∧
    trainable_param_count (get_peft_model demo_base_model peft_config)
      < total_param_count demo_base_model :=
  ⟨by decide, by decide,
    (get_peft_model_spec demo_base_model (by decide) (by decide)).2.2.2.2⟩

/-- Claim C8: the model is loaded with the notebook's quantization
configuration, which enables 4-bit loading, selects the "nf4" quantization
type, carries the double-quantization flag (set to false), and pairs the
quantized weights with bfloat16 as the compute dtype. -/
theorem loaded_model_nf4_policy :
    loaded_model.quantization_config = bnb_config ∧
    bnb_config.load_in_4bit = true ∧
    bnb_config.bnb_4bit_quant_type = "nf4" ∧
    bnb_config.bnb_4bit_use_double_quant = false ∧
    bnb_config.bnb_4bit_compute_dtype = TorchDtype.bfloat16 :=
  ⟨rfl, rfl, rfl, rfl, rfl⟩

/-- Claim C9: the `keep` flag is inert: since it is unconditionally true on
every row, the loader's filter (category in the allowed set AND keep) is
extensionally equal to filtering by category membership alone; the two
loaders return the same records on every input. -/
theorem keep_flag_inert (rows : List FullRecord) :
    load_modified_dataset rows = load_by_category_only rows := by
  induction rows with
  | nil => rfl
  | cons r rs ih =>
    simp only [load_modified_dataset, load_by_category_only, List.map_cons,
      List.filter_cons] at ih ⊢
    by_cases h : r.category ∈ allowed_categories
    · simpa [h] using ih
    · simpa [h] using ih

/-- Claim C10: on a record whose context is the empty string, the formatter
succeeds and substitutes the empty string verbatim, so the output begins
with the Context header followed directly by the blank line and the
Question header, with all three headers present and no fallback text; the
same verbatim substitution holds for an empty instruction or an empty
response. -/
theorem format_instruction_empty_fields :
    (∀ i r, format_instruction { instruction := i, context := "", response := r }
        = "### Context:\n\n\n### Question:\nUsing only the context above, " ++ i ++
            "\n\n### Response:\n" ++ r ++ "\n") ∧
    (∀ c r, format_instruction { instruction := "", context := c, response := r }
        = "### Context:\n" ++ c ++ "\n\n### Question:\nUsing only the context above, \n\n### Response:\n" ++
            r ++ "\n") ∧
    (∀ i c, format_instruction { instruction := i, context := c, response := "" }
        = "### Context:\n" ++ c ++ "\n\n### Question:\nUsing only the context above, " ++ i ++
            "\n\n### Response:\n\n") := by
  refine ⟨fun i r => ?_, fun c r => ?_, fun i c => ?_⟩ <;>
    (apply String.ext
     simp [format_instruction, String.data_append])

end FtLab
